import Mathlib

/-!
Verification of the t8-client array codec, link parsing, timestamp handling
and entity-construction layer, shallowly embedded from the Python sources
(`t8_client/utils.py`, `t8_client/t8.py`, `src/t8_client/utils.py`,
`src/t8_client/t8.py`, `src/t8_client/decode_array.py`).

Bytes are modelled as `Nat` values below 256, byte buffers as `List Nat`.
Fallible Python code (exceptions such as `binascii.Error`, `zlib.error`,
`ValueError`, `KeyError`, `IndexError`) is modelled with `Option`, `none`
standing for a raised exception.
-/

namespace T8

/-- Value of a base64 alphabet character, as in RFC 4648 (the alphabet used
by Python's `base64.b64decode`). -/
def b64CharVal (c : Char) : Option Nat :=
  if 'A' ≤ c ∧ c ≤ 'Z' then some (c.toNat - 65)
  else if 'a' ≤ c ∧ c ≤ 'z' then some (c.toNat - 97 + 26)
  else if '0' ≤ c ∧ c ≤ '9' then some (c.toNat - 48 + 52)
  else if c = '+' then some 62
  else if c = '/' then some 63
  else none

/-- Decode groups of four base64 characters into bytes; `=` padding is only
accepted at the very end, and a leftover group of fewer than four characters
is an error, as in `base64.b64decode`. -/
def b64Groups : List Char → Option (List Nat)
  | [] => some []
  | c0 :: c1 :: c2 :: c3 :: rest =>
    match b64CharVal c0, b64CharVal c1 with
    | some v0, some v1 =>
      if c2 = '=' then
        if c3 = '=' ∧ rest = [] then some [v0 * 4 + v1 / 16] else none
      else
        match b64CharVal c2 with
        | some v2 =>
          if c3 = '=' then
            if rest = [] then some [v0 * 4 + v1 / 16, (v1 % 16) * 16 + v2 / 4] else none
          else
            match b64CharVal c3 with
            | some v3 =>
              (b64Groups rest).map
                (fun bs => (v0 * 4 + v1 / 16) :: ((v1 % 16) * 16 + v2 / 4) ::
                  ((v2 % 4) * 64 + v3) :: bs)
            | none => none
        | none => none
    | _, _ => none
  | _ => none

/-- Model of Python's `base64.b64decode` (non-strict mode): characters outside
the alphabet are discarded, then the remaining text must consist of complete
four-character groups, `=` padding allowed only at the end. -/
def b64decode (s : String) : Option (List Nat) :=
  b64Groups (s.data.filter (fun c => (b64CharVal c).isSome || c = '='))

/-- Adler-32 running state update, as used for the zlib stream checksum. -/
def adler32Aux : List Nat → Nat → Nat → Nat
  | [], a, b => b * 65536 + a
  | x :: xs, a, b =>
    let a2 := (a + x) % 65521
    adler32Aux xs a2 ((b + a2) % 65521)

/-- Adler-32 checksum of a byte buffer (RFC 1950). -/
def adler32 (bs : List Nat) : Nat := adler32Aux bs 1 0

/-- Model of DEFLATE inflation (RFC 1951) for streams made of stored
(uncompressed, BTYPE = 0) blocks, which is how every payload considered here
is framed (zlib compression level 0 emits exactly such streams).  Streams
using Huffman-compressed blocks are outside the model and map to `none`; the
theorems below quantify over the inflated buffer, so they do not depend on
this restriction.  Returns the inflated bytes together with the bytes that
follow the final block.  The fuel argument (always at least the length of
the input plus one at call sites) only forces termination. -/
def inflate : Nat → List Nat → Option (List Nat × List Nat)
  | 0, _ => none
  | _ + 1, [] => none
  | fuel + 1, b :: rest =>
    if (b / 2) % 4 = 0 then
      match rest with
      | l0 :: l1 :: n0 :: n1 :: r =>
        let len := l0 + 256 * l1
        if n0 + 256 * n1 = 65535 - len ∧ len ≤ r.length then
          if b % 2 = 1 then some (r.take len, r.drop len)
          else
            match inflate fuel (r.drop len) with
            | some (out, rest2) => some (r.take len ++ out, rest2)
            | none => none
        else none
      | _ => none
    else none

/-- Model of Python's `zlib.decompress`: checks the two-byte zlib header
(RFC 1950: compression method 8, window size at most 32K, header checksum
multiple of 31, no preset dictionary), inflates the DEFLATE body, and checks
the big-endian Adler-32 trailer.  Trailing bytes after the checksum are
ignored, as in the one-shot `zlib.decompress`. -/
def zlibDecompress (input : List Nat) : Option (List Nat) :=
  match input with
  | cmf :: flg :: body =>
    if cmf % 16 = 8 ∧ cmf / 16 ≤ 7 ∧ (cmf * 256 + flg) % 31 = 0 ∧ (flg / 32) % 2 = 0 then
      match inflate (body.length + 1) body with
      | some (out, rest) =>
        match rest with
        | a3 :: a2 :: a1 :: a0 :: _ =>
          if ((a3 * 256 + a2) * 256 + a1) * 256 + a0 = adler32 out then some out else none
        | _ => none
      | none => none
    else none
  | _ => none

/-- The numpy dtypes the client passes to `np.frombuffer` / `.astype`. -/
inductive DType
  | int16
  | uint8
  | uint16
  | uint32
  | float32
deriving DecidableEq

/-- Byte width of each dtype. -/
def dtypeWidth : DType → Nat
  | .uint8 => 1
  | .int16 => 2
  | .uint16 => 2
  | .uint32 => 4
  | .float32 => 4

/-- Signed 16-bit value of an unsigned little-endian 16-bit word. -/
def sint16 (u : Nat) : Int :=
  if u < 32768 then (u : Int) else (u : Int) - 65536

/-- Group a byte buffer into little-endian 16-bit words; `none` when the
length is odd (numpy's `frombuffer` raises `ValueError` for a buffer that is
not a multiple of the element size). -/
def toWords2 : List Nat → Option (List Nat)
  | [] => some []
  | b0 :: b1 :: bs => (toWords2 bs).map (fun ws => (b0 + 256 * b1) :: ws)
  | _ => none

/-- Group a byte buffer into little-endian 32-bit words; `none` when the
length is not a multiple of four. -/
def toWords4 : List Nat → Option (List Nat)
  | [] => some []
  | b0 :: b1 :: b2 :: b3 :: bs =>
    (toWords4 bs).map (fun ws => (b0 + 256 * (b1 + 256 * (b2 + 256 * b3))) :: ws)
  | _ => none

/-- Model of `np.frombuffer(bs, dtype)`: reinterpret the buffer as a
contiguous little-endian array of the dtype's width, failing when the length
is not an exact multiple of that width.  Unsigned elements are their
little-endian value, `int16` elements are two's-complement signed.  A
`float32` element is represented by its raw little-endian 32-bit pattern:
the claims about `float32` buffers concern only byte layout and length,
never floating-point arithmetic. -/
def frombuffer (bs : List Nat) (dt : DType) : Option (List Int) :=
  match dt with
  | .uint8 => some (bs.map (fun (b : Nat) => (b : Int)))
  | .uint16 => (toWords2 bs).map (List.map (fun (w : Nat) => (w : Int)))
  | .int16 => (toWords2 bs).map (List.map sint16)
  | .uint32 => (toWords4 bs).map (List.map (fun (w : Nat) => (w : Int)))
  | .float32 => (toWords4 bs).map (List.map (fun (w : Nat) => (w : Int)))

/-- Model of numpy's `.astype(dtype)` applied to an `int16` value: C-style
conversion, wrapping modulo the target width for the unsigned targets.
Every `int16` value is exactly representable as a `float32`, so the widening
to `float32` keeps the numeric value unchanged. -/
def astype (dt : DType) (v : Int) : Int :=
  match dt with
  | .int16 => v
  | .float32 => v
  | .uint8 => v % 256
  | .uint16 => v % 65536
  | .uint32 => v % 4294967296

/-- Embedding of `decode_array` from `t8_client/utils.py`:
base64-decode, then per-format: `zint` inflates and reads signed
little-endian 16-bit integers converting each to `dtype`; `zlib` inflates
and reinterprets at `dtype`'s width; `b64` reinterprets the base64 bytes
directly; any other format string is a `ValueError`. -/
def decode_array (raw : String) (fmt : String) (dtype : DType) : Option (List Int) :=
  match b64decode raw with
  | none => none
  | some data =>
    if fmt = "zint" then
      match zlibDecompress data with
      | none => none
      | some d => (frombuffer d .int16).map (List.map (astype dtype))
    else if fmt = "zlib" then
      match zlibDecompress data with
      | none => none
      | some d => frombuffer d dtype
    else if fmt = "b64" then
      frombuffer data dtype
    else none

/-- A listing item `{"_links": {"self": url}}`; the JSON navigation
`item["_links"]["self"]` is modelled by the single field holding the URL. -/
structure LinkItem where
  links_self : String
deriving DecidableEq

/-- A parsed processing-mode / parameter identifier, the dictionary
`{"machine": _, "point": _, "tag": _}` returned by `parse_pmode_item`. -/
structure Pmode where
  machine : String
  point : String
  tag : String
deriving DecidableEq

/-- Model of Python's `str.split("/")`: split at every slash, keeping empty
segments, with `[""]` for the empty string. -/
def splitOnSlash : List Char → List (List Char)
  | [] => [[]]
  | c :: cs =>
    let r := splitOnSlash cs
    if c = '/' then [] :: r
    else
      match r with
      | s :: ss => (c :: s) :: ss
      | [] => [[c]]

/-- Model of Python's `str.strip("/")`: remove slashes from both ends. -/
def stripSlashes (cs : List Char) : List Char :=
  ((cs.dropWhile (fun c => c = '/')).reverse.dropWhile (fun c => c = '/')).reverse

/-- Embedding of `parse_pmode_item` from `t8_client/utils.py` (identical in
`src/t8_client/utils.py`): strip slashes from both ends of the link URL,
split on `/`, and take the segments at Python indices `-3`, `-2`, `-1` as
machine, point and tag; fewer than three segments raise `IndexError`. -/
def parse_pmode_item (item : LinkItem) : Option Pmode :=
  let parts := splitOnSlash (stripSlashes item.links_self.data)
  match parts.reverse with
  | tagSeg :: pointSeg :: machSeg :: _ =>
    some ⟨String.mk machSeg, String.mk pointSeg, String.mk tagSeg⟩
  | _ => none

/-- Modelled from the spec: the claimed reading of `triple_of`, taking the
last three NON-EMPTY path segments of the URL after trimming trailing
slashes, failing when fewer than three non-empty segments exist.  Used only
to compare the spec's wording with the code's behaviour. -/
def lastThreeNonEmptySegments (url : String) : Option Pmode :=
  let segs := (splitOnSlash ((url.data.reverse.dropWhile (fun c => c = '/')).reverse)).filter
    (fun s => ¬ s = [])
  match segs.reverse with
  | tagSeg :: pointSeg :: machSeg :: _ =>
    some ⟨String.mk machSeg, String.mk pointSeg, String.mk tagSeg⟩
  | _ => none

/-- Lexicographic strict comparison of character lists by code point, the
order Python uses to compare strings. -/
def charListLT : List Char → List Char → Bool
  | [], [] => false
  | [], _ :: _ => true
  | _ :: _, [] => false
  | a :: as, b :: bs =>
    if a.toNat < b.toNat then true
    else if b.toNat < a.toNat then false
    else charListLT as bs

/-- Strict lexicographic order on the key tuple `(machine, point, tag)`,
matching Python's tuple-of-strings comparison used as the `sorted` key. -/
def pmodeLT (a b : Pmode) : Bool :=
  charListLT a.machine.data b.machine.data ||
    (decide (a.machine = b.machine) &&
      (charListLT a.point.data b.point.data ||
        (decide (a.point = b.point) && charListLT a.tag.data b.tag.data)))

/-- Non-strict key order used to express sortedness of the output of
Python's `sorted`. -/
def pmodeLE (a b : Pmode) : Bool := ! pmodeLT b a

/-- Embedding of `T8.list_proc_modes` from `t8_client/t8.py`: parse every
item of the listing with `parse_pmode_item` and sort by the
`(machine, point, tag)` key.  The `_items` array of the listing response is
modelled as the list of its link items; a parse failure on any item aborts
the whole call. -/
def list_proc_modes (items : List LinkItem) : Option (List Pmode) :=
  (items.mapM parse_pmode_item).map (fun ps => ps.mergeSort pmodeLE)

/-- Embedding of `T8.list_params` from `t8_client/t8.py`, which has the same
body as `list_proc_modes` applied to the parameter listing. -/
def list_params (items : List LinkItem) : Option (List Pmode) :=
  (items.mapM parse_pmode_item).map (fun ps => ps.mergeSort pmodeLE)

/-- Embedding of `T8.list_proc_modes` from the older copy
`src/t8_client/t8.py` (lines 60-64): parse every item, returning them in
server order without sorting. -/
def list_proc_modes_py (items : List LinkItem) : Option (List Pmode) :=
  items.mapM parse_pmode_item

/-- Complete little-endian 16-bit words of a buffer, silently dropping a
trailing odd byte: the `range(int(len(d) / 2))` loop of
`src/t8_client/decode_array.py`. -/
def takeGroups2 : List Nat → List Nat
  | b0 :: b1 :: bs => (b0 + 256 * b1) :: takeGroups2 bs
  | _ => []

/-- Complete little-endian 32-bit words of a buffer, silently dropping up to
three trailing bytes: the `range(int(len(d) / 4))` loop of
`src/t8_client/decode_array.py`. -/
def takeGroups4 : List Nat → List Nat
  | b0 :: b1 :: b2 :: b3 :: bs =>
    (b0 + 256 * (b1 + 256 * (b2 + 256 * b3))) :: takeGroups4 bs
  | _ => []

/-- Embedding of the legacy `decode_array` from
`src/t8_client/decode_array.py`: for `zlib` and `zint` it unpacks
`int(len(d) / width)` complete elements with `struct.unpack`, silently
dropping any trailing remainder bytes; for `b64` it uses `np.frombuffer`.
`struct.unpack` is used with native byte order, little-endian on the
deployment targets; `float32` elements are again represented by their raw
32-bit pattern. -/
def decode_array_py (raw : String) (fmt : String) : Option (List Int) :=
  match b64decode raw with
  | none => none
  | some data =>
    if fmt = "zlib" then
      (zlibDecompress data).map (fun d => (takeGroups4 d).map (fun (w : Nat) => (w : Int)))
    else if fmt = "zint" then
      (zlibDecompress data).map (fun d => (takeGroups2 d).map sint16)
    else if fmt = "b64" then
      frombuffer data .float32
    else none

/-- The `Wave` record of `t8_client/models.py`.  Sample values and the other
JSON scalars are modelled as exact rationals: every decoded `zint` sample is
an integer that `float32` represents exactly, and the factor multiplications
appearing in the claims stay within exactly representable values. -/
structure Wave where
  path : String
  speed : ℚ
  t : ℚ
  snap_t : Int
  unit_id : Int
  data : List ℚ
  sample_rate : ℚ
deriving DecidableEq

/-- The JSON body answered by the single-wave endpoint, restricted to the
fields `get_wave` reads.  `factor` is `none` when the response has no
`"factor"` key. -/
structure WaveResponse where
  factor : Option ℚ
  data : String
  speed : ℚ
  snap_t : Int
  t : ℚ
  unit_id : Int
  sample_rate : ℚ
deriving DecidableEq

/-- Embedding of `T8.get_wave` from `t8_client/t8.py` (lines 161-178):
read `factor` with `ret.get("factor", 1.0)`, decode the `data` payload with
`decode_array`, multiply every sample by the factor, and assemble the `Wave`
record. -/
def get_wave (mach point pmode array_fmt : String) (ret : WaveResponse) : Option Wave :=
  match decode_array ret.data array_fmt DType.float32 with
  | none => none
  | some xs =>
    let factor := ret.factor.getD 1
    some
      { path := mach ++ ":" ++ point ++ ":" ++ pmode
        speed := ret.speed
        snap_t := ret.snap_t
        t := ret.t
        unit_id := ret.unit_id
        data := xs.map (fun (v : Int) => (v : ℚ) * factor)
        sample_rate := ret.sample_rate }

/-- Embedding of `T8.get_wave` from the older copy `src/t8_client/t8.py`
(lines 78-95): identical except that it reads `ret["factor"]`, so a response
without a `"factor"` key raises `KeyError`. -/
def get_wave_py (mach point pmode array_fmt : String) (ret : WaveResponse) : Option Wave :=
  match ret.factor with
  | none => none
  | some factor =>
    match decode_array ret.data array_fmt DType.float32 with
    | none => none
    | some xs =>
      some
        { path := mach ++ ":" ++ point ++ ":" ++ pmode
          speed := ret.speed
          snap_t := ret.snap_t
          t := ret.t
          unit_id := ret.unit_id
          data := xs.map (fun (v : Int) => (v : ℚ) * factor)
          sample_rate := ret.sample_rate }

/-- The `ParamTrend` record of `t8_client/models.py`; the four parallel
arrays, with elements as produced by `decode_array`. -/
structure ParamTrend where
  t : List Int
  value : List Int
  alarm : List Int
  unit : List Int
deriving DecidableEq

/-- The `MachineTrend` record of `t8_client/models.py`. -/
structure MachineTrend where
  t : List Int
  speed : List Int
  load : List Int
  alarm : List Int
  state : List Int
  strategy : List Int
deriving DecidableEq

/-- A trend response body, modelled as the association list of its fields;
`data[k]` is the first binding of `k`, `KeyError` when absent. -/
def lookupKey (resp : List (String × String)) (k : String) : Option String :=
  (resp.find? (fun kv => kv.1 = k)).map (fun kv => kv.2)

/-- Embedding of `T8.get_param_trend` from `t8_client/t8.py` (lines
243-253): look up and decode the four required array fields with the fixed
`"zlib"` format and the per-field dtype; a missing key or a failed decode
aborts construction. -/
def get_param_trend (resp : List (String × String)) : Option ParamTrend := do
  let tRaw ← lookupKey resp "t.I"
  let t ← decode_array tRaw "zlib" DType.uint32
  let valueRaw ← lookupKey resp "value.f"
  let value ← decode_array valueRaw "zlib" DType.float32
  let alarmRaw ← lookupKey resp "alarm.B"
  let alarm ← decode_array alarmRaw "zlib" DType.uint8
  let unitRaw ← lookupKey resp "unit.H"
  let unit ← decode_array unitRaw "zlib" DType.uint16
  return { t := t, value := value, alarm := alarm, unit := unit }

/-- Embedding of `T8.get_machine_trend` from `t8_client/t8.py` (lines
207-219). -/
def get_machine_trend (resp : List (String × String)) : Option MachineTrend := do
  let tRaw ← lookupKey resp "t.I"
  let t ← decode_array tRaw "zlib" DType.uint32
  let speedRaw ← lookupKey resp "speed.f"
  let speed ← decode_array speedRaw "zlib" DType.float32
  let loadRaw ← lookupKey resp "load.f"
  let load ← decode_array loadRaw "zlib" DType.float32
  let alarmRaw ← lookupKey resp "alarm.B"
  let alarm ← decode_array alarmRaw "zlib" DType.uint8
  let stateRaw ← lookupKey resp "state.B"
  let state ← decode_array stateRaw "zlib" DType.uint8
  let strategyRaw ← lookupKey resp "strategy.B"
  let strategy ← decode_array strategyRaw "zlib" DType.uint8
  return { t := t, speed := speed, load := load, alarm := alarm,
           state := state, strategy := strategy }

/-- Gregorian leap-year rule. -/
def isLeap (y : Int) : Bool := y % 4 = 0 && (decide (y % 100 ≠ 0) || y % 400 = 0)

/-- Length of a month in the proleptic Gregorian calendar. -/
def daysInMonth (y : Int) (m : Nat) : Nat :=
  if m = 2 then (if isLeap y then 29 else 28)
  else if m = 4 ∨ m = 6 ∨ m = 9 ∨ m = 11 then 30
  else 31

/-- Days since 1970-01-01 of a proleptic Gregorian date, the arithmetic
underlying `datetime`'s epoch conversions (era-based civil-from-days
algorithm). -/
def daysFromCivil (y : Int) (m d : Nat) : Int :=
  let y2 : Int := if m ≤ 2 then y - 1 else y
  let era : Int := Int.fdiv y2 400
  let yoe : Nat := (y2 - era * 400).toNat
  let mp : Nat := if 2 < m then m - 3 else m + 9
  let doy : Nat := (153 * mp + 2) / 5 + d - 1
  let doe : Nat := yoe * 365 + yoe / 4 - yoe / 100 + doy
  era * 146097 + (doe : Int) - 719468

/-- Proleptic Gregorian date of a count of days since 1970-01-01, the
inverse era-based algorithm used to model `datetime.fromtimestamp`. -/
def civilFromDays (z0 : Int) : Int × Nat × Nat :=
  let z : Int := z0 + 719468
  let era : Int := Int.fdiv z 146097
  let doe : Nat := (z - era * 146097).toNat
  let yoe : Nat := (doe - doe / 1460 + doe / 36524 - doe / 146096) / 365
  let doy : Nat := doe - (365 * yoe + yoe / 4 - yoe / 100)
  let mp : Nat := (5 * doy + 2) / 153
  let d : Nat := doy - (153 * mp + 2) / 5 + 1
  let m : Nat := if mp < 10 then mp + 3 else mp - 9
  ((yoe : Int) + era * 400 + (if m ≤ 2 then 1 else 0), m, d)

/-- Two-digit zero padding. -/
def pad2 (n : Nat) : String := if n < 10 then "0" ++ toString n else toString n

/-- Four-digit zero padding (years). -/
def pad4 (n : Nat) : String :=
  if n < 10 then "000" ++ toString n
  else if n < 100 then "00" ++ toString n
  else if n < 1000 then "0" ++ toString n
  else toString n

/-- Six-digit zero padding (microseconds). -/
def pad6 (n : Nat) : String :=
  if n < 10 then "00000" ++ toString n
  else if n < 100 then "0000" ++ toString n
  else if n < 1000 then "000" ++ toString n
  else if n < 10000 then "00" ++ toString n
  else if n < 100000 then "0" ++ toString n
  else toString n

/-- The date-time portion (without UTC offset suffix) of
`datetime.fromtimestamp(t, tz=UTC).isoformat()` for an integer epoch. -/
def isoBase (t : Int) : String :=
  let days := Int.fdiv t 86400
  let secs := (t - days * 86400).toNat
  match civilFromDays days with
  | (y, m, d) =>
    pad4 y.toNat ++ "-" ++ pad2 m ++ "-" ++ pad2 d ++ "T" ++
      pad2 (secs / 3600) ++ ":" ++ pad2 (secs % 3600 / 60) ++ ":" ++ pad2 (secs % 60)

/-- Embedding of `format_timestamp` from `t8_client/utils.py` at integer
epochs: `datetime.fromtimestamp(timestamp, tz=UTC).isoformat()`.  Python
raises `OverflowError` outside the years 1 to 9999; the model is total and
agrees with Python on that range (to which the theorems restrict
themselves). -/
def format_timestamp (t : Int) : String := isoBase t ++ "+00:00"

/-- Embedding of `format_timestamps` from `t8_client/utils.py`: the list
comprehension `[format_timestamp(t) for t in timestamps if t]`, where the
truthiness test `if t` drops exactly the elements equal to `0`. -/
def format_timestamps : List Int → List String
  | [] => []
  | t :: ts => if t = 0 then format_timestamps ts else format_timestamp t :: format_timestamps ts

/-- The components of an ISO-8601 text as `datetime.fromisoformat` reads
them; `tzoff` is the UTC offset in seconds, `none` for a naive text. -/
structure DateTimeParts where
  year : Nat
  month : Nat
  day : Nat
  hour : Nat
  minute : Nat
  second : Nat
  micro : Nat
  tzoff : Option Int
deriving DecidableEq

/-- Numeric value of a decimal digit character. -/
def digitVal (c : Char) : Option Nat :=
  if '0' ≤ c ∧ c ≤ '9' then some (c.toNat - 48) else none

/-- Parse exactly `n` decimal digits, most significant first. -/
def parseFixed (n : Nat) (acc : Nat) : List Char → Option (Nat × List Char) :=
  match n with
  | 0 => fun cs => some (acc, cs)
  | k + 1 => fun cs =>
    match cs with
    | c :: cs2 =>
      match digitVal c with
      | some v => parseFixed k (acc * 10 + v) cs2
      | none => none
    | [] => none

/-- Consume a run of fraction digits, keeping the first six (scaled to
microseconds) and discarding the rest, as `fromisoformat` does. -/
def fracOfDigits : List Char → Nat → Nat → Nat × List Char
  | cs, acc, 0 =>
    match cs with
    | c :: rest =>
      match digitVal c with
      | some _ => fracOfDigits rest acc 0
      | none => (acc, cs)
    | [] => (acc, [])
  | cs, acc, k + 1 =>
    match cs with
    | c :: rest =>
      match digitVal c with
      | some v => fracOfDigits rest (acc * 10 + v) k
      | none => (acc * 10 ^ (k + 1), cs)
    | [] => (acc * 10 ^ (k + 1), [])

/-- Parse the end of an ISO text: either nothing (naive), `Z`/`z`, or a
`±HH:MM[:SS]` offset; the offset must be strictly shorter than a day, as
`datetime.timezone` requires. -/
def parseOffsetTail (cs : List Char) : Option (Option Int) :=
  match cs with
  | [] => some none
  | ['Z'] => some (some 0)
  | ['z'] => some (some 0)
  | sgn :: rest =>
    if sgn = '+' ∨ sgn = '-' then
      match parseFixed 2 0 rest with
      | some (oh, ':' :: rest2) =>
        match parseFixed 2 0 rest2 with
        | some (om, rest3) =>
          let base := oh * 3600 + om * 60
          let total : Option Nat :=
            match rest3 with
            | [] => some base
            | ':' :: rest4 =>
              match parseFixed 2 0 rest4 with
              | some (os, []) => if os ≤ 59 then some (base + os) else none
              | _ => none
            | _ => none
          match total with
          | some tot =>
            if om ≤ 59 ∧ tot < 86400 then
              some (some (if sgn = '-' then -(tot : Int) else (tot : Int)))
            else none
          | none => none
        | _ => none
      | _ => none
    else none

/-- Assemble and range-check the time fields, then parse the offset tail. -/
def finishParts (y mo d h mi s mic : Nat) (cs : List Char) : Option DateTimeParts :=
  match parseOffsetTail cs with
  | some tz =>
    if h ≤ 23 ∧ mi ≤ 59 ∧ s ≤ 59 then
      some ⟨y, mo, d, h, mi, s, mic, tz⟩
    else none
  | none => none

/-- Parse the time-of-day portion `HH[:MM[:SS[.ffffff]]]` followed by an
optional offset. -/
def parseTimePart (y mo d : Nat) (cs : List Char) : Option DateTimeParts :=
  match parseFixed 2 0 cs with
  | some (h, rest) =>
    match rest with
    | ':' :: r2 =>
      match parseFixed 2 0 r2 with
      | some (mi, rest2) =>
        match rest2 with
        | ':' :: r3 =>
          match parseFixed 2 0 r3 with
          | some (s, rest3) =>
            match rest3 with
            | sep :: r4 =>
              if sep = '.' ∨ sep = ',' then
                match r4 with
                | c :: _ =>
                  match digitVal c with
                  | some _ =>
                    match fracOfDigits r4 0 6 with
                    | (mic, rest4) => finishParts y mo d h mi s mic rest4
                  | none => none
                | [] => none
              else finishParts y mo d h mi s 0 rest3
            | [] => finishParts y mo d h mi s 0 []
          | _ => none
        | _ => finishParts y mo d h mi 0 0 rest2
      | _ => none
    | _ => finishParts y mo d h 0 0 0 rest
  | none => none

/-- Model of `datetime.fromisoformat` on the extended ISO-8601 format
`YYYY-MM-DD[<sep>HH[:MM[:SS[.ffffff]]]][Z|±HH:MM[:SS]]` (Python 3.11 also
accepts some compact variants, which no caller in the repository uses). -/
def parseISO (str : String) : Option DateTimeParts :=
  match parseFixed 4 0 str.data with
  | some (y, '-' :: r1) =>
    match parseFixed 2 0 r1 with
    | some (mo, '-' :: r2) =>
      match parseFixed 2 0 r2 with
      | some (d, rest) =>
        if 1 ≤ y ∧ 1 ≤ mo ∧ mo ≤ 12 ∧ 1 ≤ d ∧ d ≤ daysInMonth (y : Int) mo then
          match rest with
          | [] => some ⟨y, mo, d, 0, 0, 0, 0, none⟩
          | _ :: tcs => parseTimePart y mo d tcs
        else none
      | _ => none
    | _ => none
  | _ => none

/-- Exact instant denoted by parsed components, in microseconds since the
epoch; a naive text is interpreted at the fixed local offset `tzloc`
(seconds), modelling the system timezone `datetime.timestamp()` consults. -/
def timestampMicros (p : DateTimeParts) (tzloc : Int) : Int :=
  (daysFromCivil (p.year : Int) p.month p.day * 86400
    + (p.hour : Int) * 3600 + (p.minute : Int) * 60 + (p.second : Int)
    - p.tzoff.getD tzloc) * 1000000 + (p.micro : Int)

/-- Embedding of `parse_timestamp` from `t8_client/utils.py`:
`int(datetime.fromisoformat(timestamp).timestamp())`.  The `timestamp()`
float is modelled exactly; `int()` truncates toward zero, which is
`Int.tdiv`. -/
def parse_timestamp (tzloc : Int) (s : String) : Option Int :=
  (parseISO s).map (fun p => Int.tdiv (timestampMicros p tzloc) 1000000)

/-- Modelled from the spec: `normalize` converts a timestamp text to the
canonical ISO-8601 UTC rendering of the instant it denotes (offset `+00:00`,
microseconds omitted when zero).  A naive text does not denote an instant
and is not normalizable. -/
def normalize (s : String) : Option String :=
  (parseISO s).bind (fun p =>
    match p.tzoff with
    | none => none
    | some _ =>
      let tm := timestampMicros p 0
      let e := Int.fdiv tm 1000000
      let mic := (tm - e * 1000000).toNat
      some (isoBase e ++ (if mic = 0 then "" else "." ++ pad6 mic) ++ "+00:00"))

/-- Base64 of a level-0 zlib stream whose inflated bytes are the four
little-endian signed 16-bit integers 1, 2, 3, 4. -/
def zintPayload : String := "eAEBCAD3/wEAAgADAAQAADAACw=="

/-- The bytes `b64decode zintPayload` yields: zlib header `78 01`, one final
stored block of length 8, the eight data bytes and the Adler-32 trailer. -/
def zintBytes : List Nat :=
  [120, 1, 1, 8, 0, 247, 255, 1, 0, 2, 0, 3, 0, 4, 0, 0, 48, 0, 11]

/-- Base64 of a level-0 zlib stream whose inflated buffer is the three
bytes `01 00 02` - an odd length, not a multiple of the 16-bit element
width. -/
def oddPayload : String := "eAEBAwD8/wEAAgAIAAQ="

/-- The bytes `b64decode oddPayload` yields. -/
def oddBytes : List Nat := [120, 1, 1, 3, 0, 252, 255, 1, 0, 2, 0, 8, 0, 4]

/-- The literal `zint` payload of `tests/test_utils.py::test_decode_array`:
a zlib stream of 400 bytes holding 200 little-endian signed 16-bit
samples. -/
def wavePayload : String := "eJwAkAFv/nmgZc/nB9s+aGkpf9N7D2BWMeL41sENl/mA9YNrn+/NUwZ4PX1o5H5BfBphzDJ3+jnD+5dBgYqDYZ57zL4EEzyNZ5l+q3wiYj80DPygxOyYjoEjg1qdCcspA6w6mmZKfhB9KGOwNaH9Ccbhmd+BwIJXnJjJlAFCOaNl931wfSlkHzc2/3TH2po2gmKCWJsqyAAA1TeoZJ19yn0mZYw4ygDhyNebkYIKgl2av8Zs/mg2qWNAfSF+H2b2OV8CUMrYnPCCtYFmmVXF1/z4NKZi3nxyfhRnXzvzA8LL3Z1Wg2eBcpjtw0L7hTOgYXZ8v34GaMY8iQU1zeWev4McgYOXiMKt+RAylWALfAZ/82gqPh0Hq87yny6E14CYliXBGPiaMIdfmntKf9xpjD+yCCDQAqGghJeAsZXEv4X2Iy91XiR7h3/BautARQqa0RaiGYVcgM6UZ77w9KotXV2rer9/pGtGQtkLFtMro5qFH4D3kwC9a/MfLFVcHXr/f3psoUN3DXrUbqTfhUCArpI7vAnxBCwBAAD//x6/xLY="

end T8

namespace T8

theorem toWords2_spec : ∀ (d : List Nat), d.length % 2 = 0 →
    ∃ ws, toWords2 d = some ws ∧ ws.length = d.length / 2 ∧
      ∀ i b0 b1, d[2 * i]? = some b0 → d[2 * i + 1]? = some b1 →
        ws[i]? = some (b0 + 256 * b1)
  | [], _ => ⟨[], rfl, rfl, fun i b0 b1 h0 _ => by simp at h0⟩
  | [b], h => by simp at h
  | b0 :: b1 :: bs, h => by
    obtain ⟨ws, hws, hlen, hidx⟩ :=
      toWords2_spec bs (by simp only [List.length_cons] at h; omega)
    refine ⟨(b0 + 256 * b1) :: ws, by simp [toWords2, hws], ?_, ?_⟩
    · simp only [List.length_cons, hlen]; omega
    · intro i c0 c1 h0 h1
      match i with
      | 0 =>
        simp only [Nat.mul_zero, List.getElem?_cons_zero, Option.some.injEq] at h0
        simp only [Nat.mul_zero, Nat.zero_add, List.getElem?_cons_succ,
          List.getElem?_cons_zero, Option.some.injEq] at h1
        simp [h0, h1]
      | j + 1 =>
        have e0 : 2 * (j + 1) = 2 * j + 1 + 1 := by ring
        have e1 : 2 * (j + 1) + 1 = 2 * j + 1 + 1 + 1 := by ring
        rw [e0] at h0
        rw [e1] at h1
        simp only [List.getElem?_cons_succ] at h0 h1
        simpa using hidx j c0 c1 h0 h1

theorem toWords2_none : ∀ (d : List Nat), d.length % 2 ≠ 0 → toWords2 d = none
  | [], h => by simp at h
  | [_], _ => rfl
  | b0 :: b1 :: bs, h => by
    have : toWords2 bs = none :=
      toWords2_none bs (by simp only [List.length_cons] at h; omega)
    simp [toWords2, this]

theorem toWords4_spec : ∀ (d : List Nat), d.length % 4 = 0 →
    ∃ ws, toWords4 d = some ws ∧ ws.length = d.length / 4
  | [], _ => ⟨[], rfl, rfl⟩
  | [_], h => by simp at h
  | [_, _], h => by simp at h
  | [_, _, _], h => by simp at h
  | b0 :: b1 :: b2 :: b3 :: bs, h => by
    obtain ⟨ws, hws, hlen⟩ :=
      toWords4_spec bs (by simp only [List.length_cons] at h; omega)
    refine ⟨(b0 + 256 * (b1 + 256 * (b2 + 256 * b3))) :: ws, by simp [toWords4, hws], ?_⟩
    simp only [List.length_cons, hlen]; omega

theorem toWords4_none : ∀ (d : List Nat), d.length % 4 ≠ 0 → toWords4 d = none
  | [], h => by simp at h
  | [_], _ => rfl
  | [_, _], _ => rfl
  | [_, _, _], _ => rfl
  | b0 :: b1 :: b2 :: b3 :: bs, h => by
    have : toWords4 bs = none :=
      toWords4_none bs (by simp only [List.length_cons] at h; omega)
    simp [toWords4, this]

theorem frombuffer_some (bs : List Nat) (dt : DType) (h : bs.length % dtypeWidth dt = 0) :
    ∃ xs, frombuffer bs dt = some xs ∧ xs.length = bs.length / dtypeWidth dt := by
  cases dt with
  | uint8 =>
    refine ⟨bs.map (fun (b : Nat) => (b : Int)), rfl, ?_⟩
    rw [List.length_map]
    exact (Nat.div_one _).symm
  | int16 =>
    obtain ⟨ws, hws, hlen, _⟩ := toWords2_spec bs h
    exact ⟨ws.map sint16, by simp [frombuffer, hws], by simp [hlen, dtypeWidth]⟩
  | uint16 =>
    obtain ⟨ws, hws, hlen, _⟩ := toWords2_spec bs h
    exact ⟨ws.map (fun (w : Nat) => (w : Int)), by simp [frombuffer, hws],
      by simp [hlen, dtypeWidth]⟩
  | uint32 =>
    obtain ⟨ws, hws, hlen⟩ := toWords4_spec bs h
    exact ⟨ws.map (fun (w : Nat) => (w : Int)), by simp [frombuffer, hws],
      by simp [hlen, dtypeWidth]⟩
  | float32 =>
    obtain ⟨ws, hws, hlen⟩ := toWords4_spec bs h
    exact ⟨ws.map (fun (w : Nat) => (w : Int)), by simp [frombuffer, hws],
      by simp [hlen, dtypeWidth]⟩

theorem frombuffer_none (bs : List Nat) (dt : DType) (h : bs.length % dtypeWidth dt ≠ 0) :
    frombuffer bs dt = none := by
  cases dt with
  | uint8 => exact absurd (Nat.mod_one _) h
  | int16 => simp [frombuffer, toWords2_none bs h]
  | uint16 => simp [frombuffer, toWords2_none bs h]
  | uint32 => simp [frombuffer, toWords4_none bs h]
  | float32 => simp [frombuffer, toWords4_none bs h]

theorem takeGroups2_length : ∀ (d : List Nat), (takeGroups2 d).length = d.length / 2
  | [] => rfl
  | [b] => by simp [takeGroups2]
  | b0 :: b1 :: bs => by
    simp only [takeGroups2, List.length_cons, takeGroups2_length bs]; omega

theorem takeGroups4_length : ∀ (d : List Nat), (takeGroups4 d).length = d.length / 4
  | [] => rfl
  | [b] => by simp [takeGroups4]
  | [b, c] => by simp [takeGroups4]
  | [b, c, e] => by simp [takeGroups4]
  | b0 :: b1 :: b2 :: b3 :: bs => by
    simp only [takeGroups4, List.length_cons, takeGroups4_length bs]; omega

theorem decode_array_zint_eq (raw : String) (data d : List Nat) (dt : DType)
    (hb : b64decode raw = some data) (hz : zlibDecompress data = some d) :
    decode_array raw "zint" dt = (frombuffer d DType.int16).map (List.map (astype dt)) := by
  simp [decode_array, hb, hz]

theorem decode_array_zlib_eq (raw : String) (data d : List Nat) (dt : DType)
    (hb : b64decode raw = some data) (hz : zlibDecompress data = some d) :
    decode_array raw "zlib" dt = frombuffer d dt := by
  simp [decode_array, hb, hz]

theorem decode_array_b64_eq (raw : String) (data : List Nat) (dt : DType)
    (hb : b64decode raw = some data) :
    decode_array raw "b64" dt = frombuffer data dt := by
  simp [decode_array, hb]

theorem decode_array_py_zint_eq (raw : String) (data d : List Nat)
    (hb : b64decode raw = some data) (hz : zlibDecompress data = some d) :
    decode_array_py raw "zint" = some ((takeGroups2 d).map sint16) := by
  simp [decode_array_py, hb, hz]

theorem decode_array_py_zlib_eq (raw : String) (data d : List Nat)
    (hb : b64decode raw = some data) (hz : zlibDecompress data = some d) :
    decode_array_py raw "zlib" = some ((takeGroups4 d).map (fun (w : Nat) => (w : Int))) := by
  simp only [decode_array_py, hb]
  rw [if_pos trivial, hz]
  rfl

theorem map_astype_float32 : ∀ (xs : List Int), xs.map (astype DType.float32) = xs
  | [] => rfl
  | v :: vs => by simp [astype, map_astype_float32 vs]

/-- C1: for every base64 text whose decoding is a valid zlib stream of
little-endian signed 16-bit integers, `decode_array raw "zint"` returns a
float32 array whose length is the inflated byte length divided by two and
whose i-th element is the numeric value of the i-th signed 16-bit integer,
with no rescaling or normalization. -/
theorem c1_zint_decodes_int16 (raw : String) (data d : List Nat)
    (hb : b64decode raw = some data) (hz : zlibDecompress data = some d)
    (he : d.length % 2 = 0) :
    ∃ xs, decode_array raw "zint" DType.float32 = some xs ∧
      xs.length = d.length / 2 ∧
      ∀ i b0 b1, d[2 * i]? = some b0 → d[2 * i + 1]? = some b1 →
        xs[i]? = some (sint16 (b0 + 256 * b1)) := by
  obtain ⟨ws, hws, hlen, hidx⟩ := toWords2_spec d he
  refine ⟨ws.map sint16, ?_, by simp [hlen], ?_⟩
  · rw [decode_array_zint_eq raw data d _ hb hz]
    simp [frombuffer, hws, map_astype_float32]
    exact fun a _ => rfl
  · intro i b0 b1 h0 h1
    have h := hidx i b0 b1 h0 h1
    simp [List.getElem?_map, h]

theorem c1_zint_decodes_int16_witness :
    ∃ xs, decode_array zintPayload "zint" DType.float32 = some xs ∧
      xs.length = ([1, 0, 2, 0, 3, 0, 4, 0] : List Nat).length / 2 ∧
      ∀ i b0 b1, ([1, 0, 2, 0, 3, 0, 4, 0] : List Nat)[2 * i]? = some b0 →
        ([1, 0, 2, 0, 3, 0, 4, 0] : List Nat)[2 * i + 1]? = some b1 →
        xs[i]? = some (sint16 (b0 + 256 * b1)) :=
  c1_zint_decodes_int16 zintPayload zintBytes [1, 0, 2, 0, 3, 0, 4, 0]
    (by decide) (by decide) (by decide)

set_option maxRecDepth 100000 in
/-- C2: the literal base64 payload of `tests/test_utils.py` beginning
`eJwAkAFv` decodes under format `zint` to exactly 200 samples whose first
element is -24455. -/
theorem c2_wave_payload_200_samples :
    (decode_array wavePayload "zint" DType.float32).map List.length = some 200 ∧
    (decode_array wavePayload "zint" DType.float32).bind List.head? = some (-24455) := by
  decide

/-- C4, amended: `decode_array` of `t8_client/utils.py` fails on a buffer
whose length is not an exact multiple of the declared element width (two
bytes for `zint` regardless of dtype, the dtype width for `zlib` and `b64`)
and otherwise returns exactly length/width elements; but the legacy
`decode_array` of `src/t8_client/decode_array.py` instead silently drops
trailing remainder bytes on its `zlib` and `zint` paths, returning
`floor(length/width)` elements even for misaligned buffers. -/
theorem c4_misaligned_buffers (raw : String) (data d : List Nat) (dt : DType)
    (hb : b64decode raw = some data) (hz : zlibDecompress data = some d) :
    (d.length % 2 ≠ 0 → decode_array raw "zint" dt = none) ∧
    (d.length % dtypeWidth dt ≠ 0 → decode_array raw "zlib" dt = none) ∧
    (data.length % dtypeWidth dt ≠ 0 → decode_array raw "b64" dt = none) ∧
    (d.length % 2 = 0 →
      ∃ xs, decode_array raw "zint" dt = some xs ∧ xs.length = d.length / 2) ∧
    (d.length % dtypeWidth dt = 0 →
      ∃ xs, decode_array raw "zlib" dt = some xs ∧ xs.length = d.length / dtypeWidth dt) ∧
    (data.length % dtypeWidth dt = 0 →
      ∃ xs, decode_array raw "b64" dt = some xs ∧
        xs.length = data.length / dtypeWidth dt) ∧
    (∃ xs, decode_array_py raw "zint" = some xs ∧ xs.length = d.length / 2) ∧
    (∃ xs, decode_array_py raw "zlib" = some xs ∧ xs.length = d.length / 4) := by
  refine ⟨?_, ?_, ?_, ?_, ?_, ?_, ?_, ?_⟩
  · intro h
    rw [decode_array_zint_eq raw data d dt hb hz]
    have : frombuffer d DType.int16 = none := frombuffer_none d DType.int16 h
    simp [this]
  · intro h
    rw [decode_array_zlib_eq raw data d dt hb hz]
    exact frombuffer_none d dt h
  · intro h
    rw [decode_array_b64_eq raw data dt hb]
    exact frombuffer_none data dt h
  · intro h
    obtain ⟨xs, hxs, hlen⟩ := frombuffer_some d DType.int16 h
    refine ⟨xs.map (astype dt), ?_, by simp [hlen, dtypeWidth]⟩
    rw [decode_array_zint_eq raw data d dt hb hz, hxs]
    rfl
  · intro h
    obtain ⟨xs, hxs, hlen⟩ := frombuffer_some d dt h
    exact ⟨xs, by rw [decode_array_zlib_eq raw data d dt hb hz, hxs], hlen⟩
  · intro h
    obtain ⟨xs, hxs, hlen⟩ := frombuffer_some data dt h
    exact ⟨xs, by rw [decode_array_b64_eq raw data dt hb, hxs], hlen⟩
  · refine ⟨(takeGroups2 d).map sint16, decode_array_py_zint_eq raw data d hb hz, ?_⟩
    simp [takeGroups2_length]
  · refine ⟨(takeGroups4 d).map (fun (w : Nat) => (w : Int)),
      decode_array_py_zlib_eq raw data d hb hz, ?_⟩
    simp [takeGroups4_length]

theorem c4_misaligned_buffers_witness :
    (([1, 0, 2] : List Nat).length % 2 ≠ 0 →
      decode_array oddPayload "zint" DType.float32 = none) ∧
    (([1, 0, 2] : List Nat).length % dtypeWidth DType.float32 ≠ 0 →
      decode_array oddPayload "zlib" DType.float32 = none) ∧
    (oddBytes.length % dtypeWidth DType.float32 ≠ 0 →
      decode_array oddPayload "b64" DType.float32 = none) ∧
    (([1, 0, 2] : List Nat).length % 2 = 0 →
      ∃ xs, decode_array oddPayload "zint" DType.float32 = some xs ∧
        xs.length = ([1, 0, 2] : List Nat).length / 2) ∧
    (([1, 0, 2] : List Nat).length % dtypeWidth DType.float32 = 0 →
      ∃ xs, decode_array oddPayload "zlib" DType.float32 = some xs ∧
        xs.length = ([1, 0, 2] : List Nat).length / dtypeWidth DType.float32) ∧
    (oddBytes.length % dtypeWidth DType.float32 = 0 →
      ∃ xs, decode_array oddPayload "b64" DType.float32 = some xs ∧
        xs.length = oddBytes.length / dtypeWidth DType.float32) ∧
    (∃ xs, decode_array_py oddPayload "zint" = some xs ∧
      xs.length = ([1, 0, 2] : List Nat).length / 2) ∧
    (∃ xs, decode_array_py oddPayload "zlib" = some xs ∧
      xs.length = ([1, 0, 2] : List Nat).length / 4) :=
  c4_misaligned_buffers oddPayload oddBytes [1, 0, 2] DType.float32
    (by decide) (by decide)

/-- C4 counterexample: on the inflated buffer `01 00 02` of length three -
not a multiple of the 16-bit element width - the legacy `decode_array` of
`src/t8_client/decode_array.py` with format `zint` does not fail: it
returns the one-element array `[1]`, silently dropping the trailing byte,
so the claim that every misaligned buffer produces a decode failure is
false of that function. -/
theorem c4_misaligned_buffers_cex :
    b64decode oddPayload = some oddBytes ∧
    zlibDecompress oddBytes = some [1, 0, 2] ∧
    ([1, 0, 2] : List Nat).length % 2 ≠ 0 ∧
    decode_array_py oddPayload "zint" = some [1] := by
  decide

/-- C10: for format `zint` the inflated bytes are always parsed as signed
little-endian 16-bit integers and the dtype argument only selects the
target each parsed value is converted to - one output element per two
inflated bytes for every dtype, never a reinterpretation at the dtype's
width - whereas for formats `zlib` and `b64` the dtype determines the
element width used to reinterpret the buffer. -/
theorem c10_dtype_selects_conversion_only (raw : String) (data d : List Nat) (dt : DType)
    (hb : b64decode raw = some data) (hz : zlibDecompress data = some d) :
    (d.length % 2 = 0 →
      ∃ xs, decode_array raw "zint" dt = some xs ∧ xs.length = d.length / 2 ∧
        ∀ i b0 b1, d[2 * i]? = some b0 → d[2 * i + 1]? = some b1 →
          xs[i]? = some (astype dt (sint16 (b0 + 256 * b1)))) ∧
    (d.length % 2 ≠ 0 → decode_array raw "zint" dt = none) ∧
    (d.length % dtypeWidth dt = 0 →
      ∃ xs, decode_array raw "zlib" dt = some xs ∧
        xs.length = d.length / dtypeWidth dt) ∧
    (data.length % dtypeWidth dt = 0 →
      ∃ xs, decode_array raw "b64" dt = some xs ∧
        xs.length = data.length / dtypeWidth dt) := by
  refine ⟨?_, ?_, ?_, ?_⟩
  · intro he
    obtain ⟨ws, hws, hlen, hidx⟩ := toWords2_spec d he
    refine ⟨(ws.map sint16).map (astype dt), ?_, by simp [hlen], ?_⟩
    · rw [decode_array_zint_eq raw data d dt hb hz]
      simp [frombuffer, hws]
    · intro i b0 b1 h0 h1
      have h := hidx i b0 b1 h0 h1
      simp [List.getElem?_map, h]
  · intro h
    rw [decode_array_zint_eq raw data d dt hb hz]
    simp [frombuffer_none d DType.int16 h]
  · intro h
    obtain ⟨xs, hxs, hlen⟩ := frombuffer_some d dt h
    exact ⟨xs, by rw [decode_array_zlib_eq raw data d dt hb hz, hxs], hlen⟩
  · intro h
    obtain ⟨xs, hxs, hlen⟩ := frombuffer_some data dt h
    exact ⟨xs, by rw [decode_array_b64_eq raw data dt hb, hxs], hlen⟩

theorem c10_dtype_selects_conversion_only_witness :
    (([1, 0, 2, 0, 3, 0, 4, 0] : List Nat).length % 2 = 0 →
      ∃ xs, decode_array zintPayload "zint" DType.uint32 = some xs ∧
        xs.length = ([1, 0, 2, 0, 3, 0, 4, 0] : List Nat).length / 2 ∧
        ∀ i b0 b1, ([1, 0, 2, 0, 3, 0, 4, 0] : List Nat)[2 * i]? = some b0 →
          ([1, 0, 2, 0, 3, 0, 4, 0] : List Nat)[2 * i + 1]? = some b1 →
          xs[i]? = some (astype DType.uint32 (sint16 (b0 + 256 * b1)))) ∧
    (([1, 0, 2, 0, 3, 0, 4, 0] : List Nat).length % 2 ≠ 0 →
      decode_array zintPayload "zint" DType.uint32 = none) ∧
    (([1, 0, 2, 0, 3, 0, 4, 0] : List Nat).length % dtypeWidth DType.uint32 = 0 →
      ∃ xs, decode_array zintPayload "zlib" DType.uint32 = some xs ∧
        xs.length = ([1, 0, 2, 0, 3, 0, 4, 0] : List Nat).length / dtypeWidth DType.uint32) ∧
    (zintBytes.length % dtypeWidth DType.uint32 = 0 →
      ∃ xs, decode_array zintPayload "b64" DType.uint32 = some xs ∧
        xs.length = zintBytes.length / dtypeWidth DType.uint32) :=
  c10_dtype_selects_conversion_only zintPayload zintBytes [1, 0, 2, 0, 3, 0, 4, 0]
    DType.uint32 (by decide) (by decide)

/-- C7: `format_timestamps` returns the formatted strings of exactly those
input elements not equal to 0, in their input order: no zero element
contributes an output string and no non-zero element is dropped. -/
theorem c7_format_timestamps_filters_zero (ts : List Int) :
    format_timestamps ts = (ts.filter (fun t => decide (t ≠ 0))).map format_timestamp := by
  induction ts with
  | nil => rfl
  | cons t ts ih =>
    by_cases h : t = 0
    · simp [format_timestamps, h, ih]
    · simp [format_timestamps, h, ih]

/-- C3, amended: `get_wave` in `t8_client/t8.py` reads `factor` with
default 1.0 when absent and returns a `Wave` whose data is the decoded
array multiplied elementwise by the factor (so factor 2.0 on decoded
samples 1,2,3,4 yields 2,4,6,8); the older copy in `src/t8_client/t8.py`
instead requires the `factor` field and fails with `KeyError` when it is
absent. -/
theorem c3_wave_factor (mach point pmode fmt : String) (ret : WaveResponse) (xs : List Int)
    (hd : decode_array ret.data fmt DType.float32 = some xs) :
    (∃ w, get_wave mach point pmode fmt ret = some w ∧
      w.data = xs.map (fun (v : Int) => (v : ℚ) * ret.factor.getD 1) ∧
      w.path = mach ++ ":" ++ point ++ ":" ++ pmode ∧
      w.speed = ret.speed ∧ w.snap_t = ret.snap_t ∧ w.t = ret.t ∧
      w.unit_id = ret.unit_id ∧ w.sample_rate = ret.sample_rate ∧
      (ret.factor = none → w.data = xs.map (fun (v : Int) => (v : ℚ)))) ∧
    (ret.factor = none → get_wave_py mach point pmode fmt ret = none) := by
  constructor
  · simp only [get_wave, hd]
    refine ⟨_, rfl, rfl, rfl, rfl, rfl, rfl, rfl, rfl, ?_⟩
    intro hf
    simp [hf]
  · intro hf
    simp only [get_wave_py, hf]

theorem c3_wave_factor_witness :
    decode_array zintPayload "zint" DType.float32 = some [1, 2, 3, 4] ∧
    ∃ w, get_wave "LP_Turbine" "MAD32CY005" "AM2" "zint"
        ⟨some 2, zintPayload, 0, 0, 0, 0, 0⟩ = some w ∧
      w.data = [(2 : ℚ), 4, 6, 8] := by
  refine ⟨by decide, ?_⟩
  obtain ⟨⟨w, hw, hdata, _⟩, _⟩ :=
    c3_wave_factor "LP_Turbine" "MAD32CY005" "AM2" "zint"
      ⟨some 2, zintPayload, 0, 0, 0, 0, 0⟩ [1, 2, 3, 4] (by decide)
  refine ⟨w, hw, ?_⟩
  rw [hdata]
  norm_num [List.map]

/-- C3 counterexample: the claim says `get_wave` defaults `factor` to 1.0
when the response lacks the field, but the `get_wave` of
`src/t8_client/t8.py` (cited by the claim) raises `KeyError` on such a
response instead of returning a `Wave`, even though the payload itself
decodes fine. -/
theorem c3_wave_factor_cex :
    get_wave_py "m" "p" "pm" "zint" ⟨none, zintPayload, 0, 0, 0, 0, 0⟩ = none ∧
    (decode_array zintPayload "zint" DType.float32).isSome = true :=
  ⟨rfl, by decide⟩

/-- C9: a trend response missing any one of its required array fields
fails entity construction with a raised error - no `ParamTrend` or
`MachineTrend` record with defaulted or partial fields is ever produced -
and conversely a constructed `ParamTrend` always carries the decoded value
of every one of its four required fields. -/
theorem c9_trend_requires_all_fields (resp : List (String × String)) :
    ((lookupKey resp "t.I" = none ∨ lookupKey resp "value.f" = none ∨
      lookupKey resp "alarm.B" = none ∨ lookupKey resp "unit.H" = none) →
      get_param_trend resp = none) ∧
    (∀ tr, get_param_trend resp = some tr →
      ∃ r1 r2 r3 r4,
        lookupKey resp "t.I" = some r1 ∧
        decode_array r1 "zlib" DType.uint32 = some tr.t ∧
        lookupKey resp "value.f" = some r2 ∧
        decode_array r2 "zlib" DType.float32 = some tr.value ∧
        lookupKey resp "alarm.B" = some r3 ∧
        decode_array r3 "zlib" DType.uint8 = some tr.alarm ∧
        lookupKey resp "unit.H" = some r4 ∧
        decode_array r4 "zlib" DType.uint16 = some tr.unit) ∧
    ((lookupKey resp "t.I" = none ∨ lookupKey resp "speed.f" = none ∨
      lookupKey resp "load.f" = none ∨ lookupKey resp "alarm.B" = none ∨
      lookupKey resp "state.B" = none ∨ lookupKey resp "strategy.B" = none) →
      get_machine_trend resp = none) := by
  refine ⟨?_, ?_, ?_⟩
  · rintro (h | h | h | h) <;>
      simp [get_param_trend, h, Option.bind_eq_none]
  · intro tr h
    simp only [get_param_trend, bind, Option.bind_eq_some, Option.pure_def,
      Option.some.injEq] at h
    obtain ⟨r1, h1, t, h2, r2, h3, v, h4, r3, h5, a, h6, r4, h7, u, h8, heq⟩ := h
    subst heq
    exact ⟨r1, r2, r3, r4, h1, h2, h3, h4, h5, h6, h7, h8⟩
  · rintro (h | h | h | h | h | h) <;>
      simp [get_machine_trend, h, Option.bind_eq_none]

theorem c9_trend_requires_all_fields_witness :
    get_param_trend [("t.I", zintPayload), ("alarm.B", zintPayload)] = none ∧
    get_machine_trend [("t.I", zintPayload)] = none :=
  ⟨(c9_trend_requires_all_fields [("t.I", zintPayload), ("alarm.B", zintPayload)]).1
      (Or.inr (Or.inl (by decide))),
    (c9_trend_requires_all_fields [("t.I", zintPayload)]).2.2
      (Or.inr (Or.inl (by decide)))⟩

theorem charListLT_irrefl : ∀ (a : List Char), charListLT a a = false
  | [] => rfl
  | c :: cs => by simp [charListLT, charListLT_irrefl cs]

theorem charListLT_trans : ∀ (a b c : List Char),
    charListLT a b = true → charListLT b c = true → charListLT a c = true
  | [], [], _, h, _ => by simp [charListLT] at h
  | [], _ :: _, [], _, h => by simp [charListLT] at h
  | [], _ :: _, _ :: _, _, _ => rfl
  | _ :: _, [], _, h, _ => by simp [charListLT] at h
  | _ :: _, _ :: _, [], _, h => by simp [charListLT] at h
  | a :: as, b :: bs, c :: cs, h1, h2 => by
    simp only [charListLT] at h1 h2 ⊢
    rcases Nat.lt_trichotomy a.toNat b.toNat with hab | hab | hab <;>
      rcases Nat.lt_trichotomy b.toNat c.toNat with hbc | hbc | hbc
    · rw [if_pos (by omega)]
    · rw [if_pos (by omega)]
    · rw [if_neg (by omega), if_pos (by omega)] at h2
      exact absurd h2 (by simp)
    · rw [if_pos (by omega)]
    · rw [if_neg (by omega), if_neg (by omega)] at h1 h2
      rw [if_neg (by omega), if_neg (by omega)]
      exact charListLT_trans as bs cs h1 h2
    · rw [if_neg (by omega), if_pos (by omega)] at h2
      exact absurd h2 (by simp)
    · rw [if_neg (by omega), if_pos (by omega)] at h1
      exact absurd h1 (by simp)
    · rw [if_neg (by omega), if_pos (by omega)] at h1
      exact absurd h1 (by simp)
    · rw [if_neg (by omega), if_pos (by omega)] at h1
      exact absurd h1 (by simp)

theorem charListLT_connex : ∀ (a b : List Char),
    charListLT a b = false → charListLT b a = false → a = b
  | [], [], _, _ => rfl
  | [], _ :: _, h, _ => by simp [charListLT] at h
  | _ :: _, [], _, h => by simp [charListLT] at h
  | a :: as, b :: bs, h1, h2 => by
    simp only [charListLT] at h1 h2
    rcases Nat.lt_trichotomy a.toNat b.toNat with hab | hab | hab
    · rw [if_pos hab] at h1
      exact absurd h1 (by simp)
    · rw [if_neg (by omega), if_neg (by omega)] at h1 h2
      have hc : a = b := Char.ext (UInt32.toNat.inj hab)
      rw [hc, charListLT_connex as bs h1 h2]
    · rw [if_pos hab] at h2
      exact absurd h2 (by simp)

theorem charListLT_asymm (a b : List Char) (h : charListLT a b = true) :
    charListLT b a = false := by
  by_contra hba
  have hba2 : charListLT b a = true := by
    cases hh : charListLT b a with
    | false => exact absurd hh hba
    | true => rfl
  have := charListLT_trans a b a h hba2
  rw [charListLT_irrefl a] at this
  exact absurd this (by simp)

theorem pmodeLT_iff (a b : Pmode) : pmodeLT a b = true ↔
    charListLT a.machine.data b.machine.data = true ∨
      (a.machine = b.machine ∧ (charListLT a.point.data b.point.data = true ∨
        (a.point = b.point ∧ charListLT a.tag.data b.tag.data = true))) := by
  simp [pmodeLT, Bool.or_eq_true, Bool.and_eq_true, decide_eq_true_eq]

theorem pmodeLT_irrefl (a : Pmode) : pmodeLT a a = false := by
  simp [pmodeLT, charListLT_irrefl]

theorem pmodeLT_trans (a b c : Pmode)
    (h1 : pmodeLT a b = true) (h2 : pmodeLT b c = true) : pmodeLT a c = true := by
  rw [pmodeLT_iff] at h1 h2 ⊢
  rcases h1 with h1 | ⟨hm1, h1⟩
  · rcases h2 with h2 | ⟨hm2, _⟩
    · exact Or.inl (charListLT_trans _ _ _ h1 h2)
    · exact Or.inl (hm2 ▸ h1)
  · rcases h2 with h2 | ⟨hm2, h2⟩
    · exact Or.inl (hm1 ▸ h2)
    · refine Or.inr ⟨hm1.trans hm2, ?_⟩
      rcases h1 with h1 | ⟨hp1, h1⟩
      · rcases h2 with h2 | ⟨hp2, _⟩
        · exact Or.inl (charListLT_trans _ _ _ h1 h2)
        · exact Or.inl (hp2 ▸ h1)
      · rcases h2 with h2 | ⟨hp2, h2⟩
        · exact Or.inl (hp1 ▸ h2)
        · exact Or.inr ⟨hp1.trans hp2, charListLT_trans _ _ _ h1 h2⟩

theorem pmodeLT_connex (a b : Pmode)
    (h1 : pmodeLT a b = false) (h2 : pmodeLT b a = false) : a = b := by
  have n1 : ¬ pmodeLT a b = true := by simp [h1]
  have n2 : ¬ pmodeLT b a = true := by simp [h2]
  rw [pmodeLT_iff] at n1 n2
  push_neg at n1 n2
  obtain ⟨m1, m1e⟩ := n1
  obtain ⟨m2, m2e⟩ := n2
  have hm : a.machine = b.machine := by
    apply String.ext
    exact charListLT_connex _ _ (by cases hh : charListLT a.machine.data b.machine.data with
      | true => exact absurd hh m1
      | false => rfl)
      (by cases hh : charListLT b.machine.data a.machine.data with
      | true => exact absurd hh m2
      | false => rfl)
  obtain ⟨p1, p1e⟩ := m1e hm
  obtain ⟨p2, p2e⟩ := m2e hm.symm
  have hp : a.point = b.point := by
    apply String.ext
    exact charListLT_connex _ _ (by cases hh : charListLT a.point.data b.point.data with
      | true => exact absurd hh p1
      | false => rfl)
      (by cases hh : charListLT b.point.data a.point.data with
      | true => exact absurd hh p2
      | false => rfl)
  have t1 := p1e hp
  have t2 := p2e hp.symm
  have ht : a.tag = b.tag := by
    apply String.ext
    exact charListLT_connex _ _ (by cases hh : charListLT a.tag.data b.tag.data with
      | true => exact absurd hh t1
      | false => rfl)
      (by cases hh : charListLT b.tag.data a.tag.data with
      | true => exact absurd hh t2
      | false => rfl)
  cases a
  cases b
  simp_all

theorem pmodeLE_trans (a b c : Pmode)
    (h1 : pmodeLE a b = true) (h2 : pmodeLE b c = true) : pmodeLE a c = true := by
  simp only [pmodeLE, Bool.not_eq_true'] at h1 h2 ⊢
  cases hca : pmodeLT c a with
  | false => rfl
  | true =>
    exfalso
    cases hab : pmodeLT a b with
    | true =>
      have := pmodeLT_trans c a b hca hab
      rw [h2] at this
      exact absurd this (by simp)
    | false =>
      have hba : a = b := pmodeLT_connex a b hab h1
      rw [hba] at hca
      rw [h2] at hca
      exact absurd hca (by simp)

theorem pmodeLE_total (a b : Pmode) : pmodeLE a b || pmodeLE b a := by
  simp only [pmodeLE, Bool.or_eq_true, Bool.not_eq_true'] at *
  cases hab : pmodeLT a b with
  | false => exact Or.inr rfl
  | true =>
    left
    by_contra hba
    have hba2 : pmodeLT b a = true := by
      cases hh : pmodeLT b a with
      | false => exact absurd hh hba
      | true => rfl
    have := pmodeLT_trans a b a hab hba2
    rw [pmodeLT_irrefl a] at this
    exact absurd this (by simp)

/-- C5, amended: `list_proc_modes` and `list_params` of `t8_client/t8.py`
return a permutation of the triples parsed in order from the listing's
`_items`, sorted ascending by the lexicographic `(machine, point, tag)`
key; but the older `list_proc_modes` of `src/t8_client/t8.py` (also cited
by the claim) returns the parsed triples in server order without
sorting. -/
theorem c5_listings_sorted (items : List LinkItem) (ps : List Pmode)
    (hp : items.mapM parse_pmode_item = some ps) :
    ∃ out, list_proc_modes items = some out ∧ list_params items = some out ∧
      out.Perm ps ∧ out.Pairwise (fun a b => pmodeLE a b = true) ∧
      list_proc_modes_py items = some ps := by
  refine ⟨ps.mergeSort pmodeLE, ?_, ?_, ?_, ?_, hp⟩
  · simp only [list_proc_modes, hp]
    rfl
  · simp only [list_params, hp]
    rfl
  · exact List.mergeSort_perm ps pmodeLE
  · have h := @List.sorted_mergeSort Pmode pmodeLE
      (fun a b c => pmodeLE_trans a b c) (fun a b => pmodeLE_total a b) ps
    exact h.imp (fun hab => hab)

theorem c5_listings_sorted_witness :
    ∃ out,
      list_proc_modes
        [⟨"http://h/rest/waves/LP_Turbine/MAD32CY005/AM2/"⟩,
         ⟨"http://h/rest/waves/HP_Turbine/MAD31CY001/AM1/"⟩] = some out ∧
      list_params
        [⟨"http://h/rest/waves/LP_Turbine/MAD32CY005/AM2/"⟩,
         ⟨"http://h/rest/waves/HP_Turbine/MAD31CY001/AM1/"⟩] = some out ∧
      out.Perm [⟨"LP_Turbine", "MAD32CY005", "AM2"⟩, ⟨"HP_Turbine", "MAD31CY001", "AM1"⟩] ∧
      out.Pairwise (fun a b => pmodeLE a b = true) ∧
      list_proc_modes_py
        [⟨"http://h/rest/waves/LP_Turbine/MAD32CY005/AM2/"⟩,
         ⟨"http://h/rest/waves/HP_Turbine/MAD31CY001/AM1/"⟩] =
        some [⟨"LP_Turbine", "MAD32CY005", "AM2"⟩, ⟨"HP_Turbine", "MAD31CY001", "AM1"⟩] :=
  c5_listings_sorted
    [⟨"http://h/rest/waves/LP_Turbine/MAD32CY005/AM2/"⟩,
     ⟨"http://h/rest/waves/HP_Turbine/MAD31CY001/AM1/"⟩]
    [⟨"LP_Turbine", "MAD32CY005", "AM2"⟩, ⟨"HP_Turbine", "MAD31CY001", "AM1"⟩]
    (by decide)

/-- C5 counterexample: on a listing whose parsed triples arrive in
descending key order, the `list_proc_modes` of `src/t8_client/t8.py`
returns them unsorted - its output is not ascending by
`(machine, point, tag)` - so the claim is false of that cited function. -/
theorem c5_listings_sorted_cex :
    list_proc_modes_py
      [⟨"http://h/rest/waves/LP_Turbine/MAD32CY005/AM2/"⟩,
       ⟨"http://h/rest/waves/HP_Turbine/MAD31CY001/AM1/"⟩] =
      some [⟨"LP_Turbine", "MAD32CY005", "AM2"⟩, ⟨"HP_Turbine", "MAD31CY001", "AM1"⟩] ∧
    ¬ ([⟨"LP_Turbine", "MAD32CY005", "AM2"⟩, ⟨"HP_Turbine", "MAD31CY001", "AM1"⟩] :
        List Pmode).Pairwise (fun a b => pmodeLE a b = true) := by
  constructor
  · decide
  · decide

theorem reverse_three {α : Type} : ∀ (l : List α), 3 ≤ l.length →
    ∃ x y z rest, l.reverse = z :: y :: x :: rest ∧
      l[l.length - 3]? = some x ∧ l[l.length - 2]? = some y ∧
      l[l.length - 1]? = some z := by
  intro l hl
  have hlr : l.reverse.length = l.length := by simp
  match hr : l.reverse with
  | [] =>
    rw [hr] at hlr
    simp at hlr
    omega
  | [z] =>
    rw [hr] at hlr
    simp at hlr
    omega
  | [z, y] =>
    rw [hr] at hlr
    simp at hlr
    omega
  | z :: y :: x :: rest =>
    refine ⟨x, y, z, rest, rfl, ?_, ?_, ?_⟩
    · rw [← List.getElem?_reverse' 2 (l.length - 3) (by omega), hr]
      simp
    · rw [← List.getElem?_reverse' 1 (l.length - 2) (by omega), hr]
      simp
    · rw [← List.getElem?_reverse' 0 (l.length - 1) (by omega), hr]
      simp

/-- C8, amended: `parse_pmode_item` returns the segments at Python indices
-3, -2, -1 of the link URL split on `/` after stripping slashes from both
ends - these segments may be empty when the URL contains consecutive
slashes, so they are not always the last three NON-empty segments - and a
URL whose stripped split has fewer than three segments (empty ones
included) raises `IndexError` instead of returning a triple.  On the
example URL ending `/LP_Turbine/MAD32CY005/AM2/` the result is the triple
(LP_Turbine, MAD32CY005, AM2). -/
theorem c8_triple_of_segments (item : LinkItem) :
    ((splitOnSlash (stripSlashes item.links_self.data)).length < 3 →
      parse_pmode_item item = none) ∧
    (3 ≤ (splitOnSlash (stripSlashes item.links_self.data)).length →
      ∃ ma po ta,
        (splitOnSlash (stripSlashes item.links_self.data))[
          (splitOnSlash (stripSlashes item.links_self.data)).length - 3]? = some ma ∧
        (splitOnSlash (stripSlashes item.links_self.data))[
          (splitOnSlash (stripSlashes item.links_self.data)).length - 2]? = some po ∧
        (splitOnSlash (stripSlashes item.links_self.data))[
          (splitOnSlash (stripSlashes item.links_self.data)).length - 1]? = some ta ∧
        parse_pmode_item item = some ⟨String.mk ma, String.mk po, String.mk ta⟩) ∧
    parse_pmode_item ⟨"http://lzfs45.mirror.twave.io/lzfs45/rest/waves/LP_Turbine/MAD32CY005/AM2/"⟩ =
      some ⟨"LP_Turbine", "MAD32CY005", "AM2"⟩ := by
  refine ⟨?_, ?_, by decide⟩
  · intro hlen
    simp only [parse_pmode_item]
    match hr : (splitOnSlash (stripSlashes item.links_self.data)).reverse with
    | [] => rfl
    | [a] => rfl
    | [a, b] => rfl
    | a :: b :: c :: rest =>
      have hlr : (splitOnSlash (stripSlashes item.links_self.data)).reverse.length =
          (splitOnSlash (stripSlashes item.links_self.data)).length := by simp
      rw [hr] at hlr
      simp at hlr
      omega
  · intro hlen
    obtain ⟨x, y, z, rest, hr, hx, hy, hz⟩ :=
      reverse_three (splitOnSlash (stripSlashes item.links_self.data)) hlen
    refine ⟨x, y, z, hx, hy, hz, ?_⟩
    simp only [parse_pmode_item]
    rw [hr]

theorem c8_triple_of_segments_witness :
    3 ≤ (splitOnSlash (stripSlashes
      ("http://lzfs45.mirror.twave.io/lzfs45/rest/waves/LP_Turbine/MAD32CY005/AM2/" :
        String).data)).length ∧
    ∃ ma po ta,
      (splitOnSlash (stripSlashes
        ("http://lzfs45.mirror.twave.io/lzfs45/rest/waves/LP_Turbine/MAD32CY005/AM2/" :
          String).data))[
        (splitOnSlash (stripSlashes
          ("http://lzfs45.mirror.twave.io/lzfs45/rest/waves/LP_Turbine/MAD32CY005/AM2/" :
            String).data)).length - 3]? = some ma ∧
      (splitOnSlash (stripSlashes
        ("http://lzfs45.mirror.twave.io/lzfs45/rest/waves/LP_Turbine/MAD32CY005/AM2/" :
          String).data))[
        (splitOnSlash (stripSlashes
          ("http://lzfs45.mirror.twave.io/lzfs45/rest/waves/LP_Turbine/MAD32CY005/AM2/" :
            String).data)).length - 2]? = some po ∧
      (splitOnSlash (stripSlashes
        ("http://lzfs45.mirror.twave.io/lzfs45/rest/waves/LP_Turbine/MAD32CY005/AM2/" :
          String).data))[
        (splitOnSlash (stripSlashes
          ("http://lzfs45.mirror.twave.io/lzfs45/rest/waves/LP_Turbine/MAD32CY005/AM2/" :
            String).data)).length - 1]? = some ta ∧
      parse_pmode_item
        ⟨"http://lzfs45.mirror.twave.io/lzfs45/rest/waves/LP_Turbine/MAD32CY005/AM2/"⟩ =
        some ⟨String.mk ma, String.mk po, String.mk ta⟩ :=
  ⟨by decide,
    (c8_triple_of_segments
      ⟨"http://lzfs45.mirror.twave.io/lzfs45/rest/waves/LP_Turbine/MAD32CY005/AM2/"⟩).2.1
      (by decide)⟩

/-- C8 counterexample: on a link URL with consecutive slashes, such as
`a//b//c`, the code returns the last three raw segments (`b`, empty, `c`)
while the claim's reading - the last three NON-empty segments - would give
(`a`, `b`, `c`); the two disagree, so the claim as stated is false. -/
theorem c8_triple_of_segments_cex :
    parse_pmode_item ⟨"a//b//c"⟩ = some ⟨"b", "", "c"⟩ ∧
    lastThreeNonEmptySegments "a//b//c" = some ⟨"a", "b", "c"⟩ ∧
    (⟨"b", "", "c"⟩ : Pmode) ≠ ⟨"a", "b", "c"⟩ := by
  refine ⟨by decide, by decide, by decide⟩

/-- C6, amended: for every ISO-8601 text carrying an explicit UTC offset
and whole seconds, formatting the parsed epoch value yields the canonical
ISO-8601 UTC form of the text's instant:
`format_timestamp <$> parse_timestamp text = normalize text`, for any
local-timezone setting (the offset makes it irrelevant).  Fractional
seconds are truncated away by `int(...)` and naive texts are read in the
system local timezone, so the round-trip law does not extend to those
texts. -/
theorem c6_parse_format_roundtrip (s : String) (p : DateTimeParts) (off tz : Int)
    (hp : parseISO s = some p) (hmic : p.micro = 0) (hoff : p.tzoff = some off) :
    (parse_timestamp tz s).map format_timestamp = normalize s := by
  have hsame : timestampMicros p tz = timestampMicros p 0 := by
    simp [timestampMicros, hoff]
  have hfac : timestampMicros p 0 =
      (daysFromCivil (p.year : Int) p.month p.day * 86400
        + (p.hour : Int) * 3600 + (p.minute : Int) * 60 + (p.second : Int) - off)
        * 1000000 := by
    simp [timestampMicros, hoff, hmic]
  have htd : Int.tdiv (timestampMicros p tz) 1000000 =
      daysFromCivil (p.year : Int) p.month p.day * 86400
        + (p.hour : Int) * 3600 + (p.minute : Int) * 60 + (p.second : Int) - off := by
    rw [hsame, hfac]
    exact Int.mul_tdiv_cancel _ (by norm_num)
  have hfd : Int.fdiv (timestampMicros p 0) 1000000 =
      daysFromCivil (p.year : Int) p.month p.day * 86400
        + (p.hour : Int) * 3600 + (p.minute : Int) * 60 + (p.second : Int) - off := by
    rw [hfac]
    exact Int.mul_fdiv_cancel _ (by norm_num)
  have hmic0 : (timestampMicros p 0 -
      Int.fdiv (timestampMicros p 0) 1000000 * 1000000).toNat = 0 := by
    rw [hfd, hfac]
    simp
  simp only [parse_timestamp, normalize, hp, Option.map_some', Option.some_bind, hoff]
  rw [htd, hmic0, hfd]
  simp [format_timestamp]

theorem c6_parse_format_roundtrip_witness :
    parseISO "2019-04-10T16:48:44+02:00" =
      some ⟨2019, 4, 10, 16, 48, 44, 0, some 7200⟩ ∧
    (parse_timestamp 0 "2019-04-10T16:48:44+02:00").map format_timestamp =
      normalize "2019-04-10T16:48:44+02:00" :=
  ⟨by decide,
    c6_parse_format_roundtrip "2019-04-10T16:48:44+02:00"
      ⟨2019, 4, 10, 16, 48, 44, 0, some 7200⟩ 7200 0 (by decide) (by decide) (by decide)⟩

/-- C6 counterexample: the valid ISO-8601 text
`1970-01-01T00:00:00.500000+00:00` denotes the instant half a second past
the epoch, whose canonical UTC form keeps the fraction, but
`int(datetime.fromisoformat(text).timestamp())` truncates it to epoch 0,
so formatting the parsed value yields `1970-01-01T00:00:00+00:00`, which
differs from the normalized text: the round-trip claim fails on texts
with fractional seconds. -/
theorem c6_parse_format_roundtrip_cex :
    (parseISO "1970-01-01T00:00:00.500000+00:00").isSome = true ∧
    (parse_timestamp 0 "1970-01-01T00:00:00.500000+00:00").map format_timestamp =
      some "1970-01-01T00:00:00+00:00" ∧
    normalize "1970-01-01T00:00:00.500000+00:00" =
      some "1970-01-01T00:00:00.500000+00:00" ∧
    (parse_timestamp 0 "1970-01-01T00:00:00.500000+00:00").map format_timestamp ≠
      normalize "1970-01-01T00:00:00.500000+00:00" := by
  refine ⟨by decide, by decide, by decide, by decide⟩

end T8
